import Mathlib

/-!
# CourseMaster backend: verification of the cache / progress / scoring / lifecycle core

Shallow embedding of the CourseMaster-Backend source (Express + Mongoose + Redis).
Each definition mirrors one function or schema of the repository:

* `RedisClientState` and its operations mirror the `RedisClient` class
  (`src/utils/redis.util.ts`, appearing in `src/src/controllers/admin.controller.ts`
  lines 170-272 of the concatenated sources).
* Course and assignment handlers mirror `course.controller.ts` (`src/unnamed/part_001`),
  `adminAssignment.controller.ts` (second document of `src/unnamed/part_001`) and the
  cached `assignment.controller.ts`.
* Progress tracking mirrors the two `markLessonComplete` implementations
  (`src/unnamed/part_003` count-based, `src/unnamed/part_004` increment-based).
* Quiz scoring mirrors `quiz.controller.ts` (`submitQuiz`) and `takeQuiz`
  (`src/unnamed/part_003`).

JavaScript numbers are modelled exactly where the code only ever produces integral or
rational values: `Math.round` on a nonnegative rational is `⌊q + 1/2⌋`, and a value
that JavaScript would make non-finite (`Infinity`/`NaN`, from a division by zero) is
modelled as `none` in an `Option` result.
-/

namespace CourseMaster

/-- Mongo ObjectId, modelled as a string. -/
abbrev OId := String

/-- A timestamp (`new Date()` / `Date.now`), modelled as a natural number. -/
abbrev Time := Nat

/-- JavaScript `Math.round` on a nonnegative rational: round half away from zero,
which for nonnegative arguments is `⌊q + 1/2⌋`. -/
def jsRound (q : ℚ) : ℤ :=
  Int.floor (q + 1/2)

/-- `Math.round((a / b) * 100)` for naturals with `b > 0`, computed in natural
arithmetic: `⌊100a/b + 1/2⌋ = (200a + b) / (2b)`. The agreement with `jsRound` on the
rational formula is proved in `jsRoundPct_eq` below. -/
def jsRoundPct (a b : Nat) : Nat :=
  (200 * a + b) / (2 * b)

/-- Results of fallible calls can be compared for the concrete evaluations below. -/
instance instDecEqExcept {e a : Type} [DecidableEq e] [DecidableEq a] :
    DecidableEq (Except e a) := fun x y =>
  match x, y with
  | .ok v, .ok w =>
    if h : v = w then .isTrue (by rw [h])
    else .isFalse (fun hc => h (by cases hc; rfl))
  | .ok _, .error _ => .isFalse (fun hc => Except.noConfusion hc)
  | .error _, .ok _ => .isFalse (fun hc => Except.noConfusion hc)
  | .error v, .error w =>
    if h : v = w then .isTrue (by rw [h])
    else .isFalse (fun hc => h (by cases hc; rfl))

/-- The error taxonomy produced by the controllers via `AppError(message, status)`. -/
inductive AppError
  | notFound (msg : String)
  | badRequest (msg : String)
  | forbidden (msg : String)
  | internal (msg : String)
deriving DecidableEq, Repr

/-! ## CacheStore: the `RedisClient` class (`src/utils/redis.util.ts`)

The underlying `redis` package client is modelled as a key/value store together with
failure flags: a flag set to `true` means the corresponding underlying call raises
(the promise rejects), which is how we quantify over "an underlying call raises". -/

/-- The underlying redis connection: its keyspace plus, for each operation the
`RedisClient` class invokes on it, a flag saying whether that call raises. -/
structure RedisBackend where
  store : List (String × String)
  failGet : Bool
  failSet : Bool
  failDel : Bool
  failKeys : Bool
deriving DecidableEq, Repr

/-- Redis glob matching as used by this codebase: the only patterns the code passes to
`delPattern` are trailing-star patterns (`courses:*`, `assignments:*`), so we interpret
a trailing `*` as a "starts with" wildcard and anything else as an exact key. -/
def globMatch (pattern key : String) : Bool :=
  if pattern.data.getLast? == some (Char.ofNat 42) then
    List.isPrefixOf pattern.data.dropLast key.data
  else key == pattern

/-- `this.client.get(key)`: raises when `failGet`, else returns the stored value. -/
def RedisBackend.getRaw (b : RedisBackend) (key : String) : Except String (Option String) :=
  if b.failGet then .error "redis" else
  .ok ((b.store.find? (fun p => p.1 == key)).map Prod.snd)

/-- `this.client.setEx(key, ttl, value)`: raises when `failSet`, else stores the value
(the TTL only governs expiry and is not otherwise observable here). -/
def RedisBackend.setRaw (b : RedisBackend) (key value : String) (_ttl : Nat) :
    Except String RedisBackend :=
  if b.failSet then .error "redis" else
  .ok { b with store := (key, value) :: b.store.filter (fun p => p.1 != key) }

/-- `this.client.del(key)`: raises when `failDel`, else removes the key. -/
def RedisBackend.delRaw (b : RedisBackend) (key : String) : Except String RedisBackend :=
  if b.failDel then .error "redis" else
  .ok { b with store := b.store.filter (fun p => p.1 != key) }

/-- `this.client.keys(pattern)`: raises when `failKeys`, else lists matching keys. -/
def RedisBackend.keysRaw (b : RedisBackend) (pattern : String) :
    Except String (List String) :=
  if b.failKeys then .error "redis" else
  .ok ((b.store.filter (fun p => globMatch pattern p.1)).map Prod.fst)

/-- `this.client.del(keys)` on a key array: raises when `failDel`, else removes all. -/
def RedisBackend.delManyRaw (b : RedisBackend) (keys : List String) :
    Except String RedisBackend :=
  if b.failDel then .error "redis" else
  .ok { b with store := b.store.filter (fun p => !(keys.contains p.1)) }

/-- The mutable fields of the `RedisClient` singleton:
`private client: RedisClientType | null` and `private isConnected: boolean`. -/
structure RedisClientState where
  client : Option RedisBackend
  isConnected : Bool
deriving DecidableEq, Repr

/-- The environment `connect()` inspects: whether `REDIS_HOST`/`REDIS_URL` is set, and
whether the `createClient(...).connect()` call succeeds (yielding a backend) or
rejects. -/
structure RedisEnv where
  configured : Bool
  connectResult : Except String RedisBackend

/-- `RedisClient.connect()`. Returns `Except` to make any propagated exception
visible; the `try`/`catch` in the source swallows connection failures. -/
def RedisClientState.connect (rc : RedisClientState) (env : RedisEnv) :
    Except String RedisClientState :=
  if rc.isConnected then .ok rc
  else if !env.configured then .ok rc
  else
    match env.connectResult with
    | .ok b => .ok { client := some b, isConnected := true }
    | .error _ => .ok rc

/-- `RedisClient.get(key)`: guard on `isConnected`/`client`, then `try`/`catch`
returning `null` on error. -/
def RedisClientState.get (rc : RedisClientState) (key : String) :
    Except String (Option String) :=
  if !rc.isConnected || rc.client.isNone then .ok none
  else
    match rc.client with
    | none => .ok none
    | some b =>
      match b.getRaw key with
      | .ok v => .ok v
      | .error _ => .ok none

/-- `RedisClient.set(key, value, expirationInSeconds)`. -/
def RedisClientState.set (rc : RedisClientState) (key value : String) (ttl : Nat) :
    Except String RedisClientState :=
  if !rc.isConnected || rc.client.isNone then .ok rc
  else
    match rc.client with
    | none => .ok rc
    | some b =>
      match b.setRaw key value ttl with
      | .ok b2 => .ok { rc with client := some b2 }
      | .error _ => .ok rc

/-- `RedisClient.del(key)`. -/
def RedisClientState.del (rc : RedisClientState) (key : String) :
    Except String RedisClientState :=
  if !rc.isConnected || rc.client.isNone then .ok rc
  else
    match rc.client with
    | none => .ok rc
    | some b =>
      match b.delRaw key with
      | .ok b2 => .ok { rc with client := some b2 }
      | .error _ => .ok rc

/-- `RedisClient.delPattern(pattern)`: `keys(pattern)` then, if any, `del(keys)`,
all inside one `try`/`catch`. -/
def RedisClientState.delPattern (rc : RedisClientState) (pattern : String) :
    Except String RedisClientState :=
  if !rc.isConnected || rc.client.isNone then .ok rc
  else
    match rc.client with
    | none => .ok rc
    | some b =>
      match b.keysRaw pattern with
      | .error _ => .ok rc
      | .ok keys =>
        if keys.length > 0 then
          match b.delManyRaw keys with
          | .ok b2 => .ok { rc with client := some b2 }
          | .error _ => .ok rc
        else .ok rc

/-! ## Data model: users, courses, assignments
(`User.model`, `Course.model`, `Assignment.model` schemas) -/

/-- `role` enum of the user schema (`src/unnamed/part_008`). -/
inductive Role
  | student
  | admin
  | moderator
  | teacher
  | instructor
deriving DecidableEq, Repr

/-- A persisted user document. The user schema (`src/unnamed/part_008` lines 62-118)
declares the paths `name`, `email`, `password`, `role`, `isActive`, `lastLogin`,
`createdBy`, `permissions`, `bio`, `avatar`, `phone` and nothing else; in particular
it declares no `batch` path, so a persisted user document never carries one. -/
structure UserDoc where
  id : OId
  name : String
  email : String
  role : Role
  isActive : Bool
deriving DecidableEq, Repr

/-- Reading `user.batch` on a persisted user document: the schema has no such path,
so Mongoose strict mode never persists one and the read yields `undefined`. -/
def userBatch (_u : UserDoc) : Option String :=
  none

/-- The `batch` sub-document of the course schema. -/
structure CourseBatch where
  name : String
  startDate : Time
  endDate : Option Time
deriving DecidableEq, Repr

/-- A persisted course document (the fields the verified handlers read). -/
structure CourseDoc where
  id : OId
  title : String
  batch : CourseBatch
  isPublished : Bool
deriving DecidableEq, Repr

/-- `status` enum of the assignment schema. -/
inductive AStatus
  | pending
  | submitted
  | reviewed
deriving DecidableEq, Repr

/-- The `submission` sub-document of an assignment. -/
structure Submission where
  answer : String
  submittedAt : Time
deriving DecidableEq, Repr

/-- The `review` sub-document of an assignment. -/
structure Review where
  feedback : String
  reviewedBy : OId
  reviewedAt : Time
deriving DecidableEq, Repr

/-- A persisted assignment document (`src/unnamed/part_007`). -/
structure AssignmentDoc where
  id : OId
  student : Option OId
  course : OId
  batch : Option String
  moduleIndex : Option Nat
  title : String
  description : String
  dueDate : Option Time
  createdBy : OId
  submission : Option Submission
  review : Option Review
  status : AStatus
deriving DecidableEq, Repr

/-- The system of record plus the shared cache connection, as seen by a handler. -/
structure AppState where
  courses : List CourseDoc
  assignments : List AssignmentDoc
  cache : RedisClientState
deriving DecidableEq, Repr

/-- JavaScript `if (x) field = x` on an optional string: the empty string is falsy,
so it leaves the field unchanged. -/
def jsStrOr (x : Option String) (d : String) : String :=
  match x with
  | some s => if s == "" then d else s
  | none => d

/-- `document.save()` / `Model.findByIdAndUpdate(id, ...)`: persist the mutated
document under its `_id`. -/
def saveAssignment (docs : List AssignmentDoc) (a : AssignmentDoc) : List AssignmentDoc :=
  docs.map (fun x => if x.id == a.id then a else x)

/-! ## Course handlers (`course.controller.ts`, first document of `src/unnamed/part_001`) -/

/-- `createCourse`: `Course.create(req.body)` then `redisClient.delPattern('courses:*')`,
then the 201 response. A cache exception would escape to the `catch` block, hence the
`Except`; the fail-open CacheStore never produces one. -/
def createCourse (st : AppState) (body : CourseDoc) :
    Except AppError (AppState × CourseDoc) :=
  match st.cache.delPattern "courses:*" with
  | .error e => .error (.internal e)
  | .ok cache1 => .ok ({ st with courses := st.courses ++ [body], cache := cache1 }, body)

/-- `updateCourse`: `findByIdAndUpdate(id, body, {new: true})`, 404 when absent, then
`delPattern('courses:*')`. The update is modelled as replacing the document's payload
while keeping its `_id`. -/
def updateCourse (st : AppState) (courseId : OId) (body : CourseDoc) :
    Except AppError (AppState × CourseDoc) :=
  match st.courses.find? (fun c => c.id == courseId) with
  | none => .error (.notFound "Course not found")
  | some c =>
    let c1 := { body with id := c.id }
    let courses1 := st.courses.map (fun x => if x.id == courseId then c1 else x)
    match st.cache.delPattern "courses:*" with
    | .error e => .error (.internal e)
    | .ok cache1 => .ok ({ st with courses := courses1, cache := cache1 }, c1)

/-- `deleteCourse`: `findByIdAndDelete(id)`, 404 when absent, then
`delPattern('courses:*')`. -/
def deleteCourse (st : AppState) (courseId : OId) :
    Except AppError (AppState × CourseDoc) :=
  match st.courses.find? (fun c => c.id == courseId) with
  | none => .error (.notFound "Course not found")
  | some c =>
    let courses1 := st.courses.filter (fun x => x.id != courseId)
    match st.cache.delPattern "courses:*" with
    | .error e => .error (.internal e)
    | .ok cache1 => .ok ({ st with courses := courses1, cache := cache1 }, c)

/-! ## Admin assignment handlers
(`adminAssignment.controller.ts`, second document of `src/unnamed/part_001`) -/

/-- `updateAssignment` (`src/unnamed/part_001` lines 314-340): mutate
title/description/dueDate when supplied, `save()`, respond. It performs no cache
operation whatsoever. -/
def adminUpdateAssignment (st : AppState) (assignmentId : OId)
    (title description : Option String) (dueDate : Option Time) :
    Except AppError (AppState × AssignmentDoc) :=
  match st.assignments.find? (fun a => a.id == assignmentId) with
  | none => .error (.notFound "Assignment not found")
  | some a =>
    let a1 := { a with
      title := jsStrOr title a.title
      description := jsStrOr description a.description
      dueDate := match dueDate with | some d => some d | none => a.dueDate }
    .ok ({ st with assignments := saveAssignment st.assignments a1 }, a1)

/-- `reviewAssignment` (`src/unnamed/part_001` lines 362-394): 404 when absent, 400
(`'Assignment has not been submitted yet'`) unless status is `submitted`, else write
the review sub-record and flip status to `reviewed` in one `save()`. It performs no
cache operation whatsoever. -/
def adminReviewAssignment (st : AppState) (assignmentId : OId)
    (feedback : String) (reviewedBy : OId) (now : Time) :
    Except AppError (AppState × AssignmentDoc) :=
  match st.assignments.find? (fun a => a.id == assignmentId) with
  | none => .error (.notFound "Assignment not found")
  | some a =>
    if a.status != .submitted then
      .error (.badRequest "Assignment has not been submitted yet")
    else
      let a1 := { a with review := some ⟨feedback, reviewedBy, now⟩, status := .reviewed }
      .ok ({ st with assignments := saveAssignment st.assignments a1 }, a1)

/-! ## Cached assignment handlers (`src/src/controllers/assignment.controller.ts`) -/

/-- `reviewAssignment` of the cached assignment controller (lines 235-282): 403 for
students, 404 when absent, then — with no check of the current status — write the
review sub-record, set status `reviewed`, `save()`, and
`redisClient.delPattern('assignments:*')`; finally re-fetch the document. -/
def reviewAssignmentCached (st : AppState) (assignmentId : OId)
    (feedback : String) (userId : OId) (userRole : Role) (now : Time) :
    Except AppError (AppState × Option AssignmentDoc) :=
  if userRole == .student then
    .error (.forbidden "Not authorized to review assignments")
  else
    match st.assignments.find? (fun a => a.id == assignmentId) with
    | none => .error (.notFound "Assignment not found")
    | some a =>
      let a1 := { a with review := some ⟨feedback, userId, now⟩, status := .reviewed }
      let docs1 := saveAssignment st.assignments a1
      match st.cache.delPattern "assignments:*" with
      | .error e => .error (.internal e)
      | .ok cache1 =>
        .ok ({ st with assignments := docs1, cache := cache1 },
          docs1.find? (fun x => x.id == assignmentId))

/-- The `findOne` filter of `submitAssignment`:
`{ course: courseId, title, $or: [{ student: user._id }, { student: { $exists: false } }] }`. -/
def submitTargets (courseId title : String) (userId : OId) (a : AssignmentDoc) : Bool :=
  a.course == courseId && a.title == title &&
    (a.student == some userId || a.student == none)

/-- The in-place mutation the submit path applies to an existing matching document. -/
def submittedUpdate (a : AssignmentDoc) (userId : OId) (answer : String) (now : Time) :
    AssignmentDoc :=
  { a with student := some userId, submission := some ⟨answer, now⟩, status := .submitted }

/-- The document `Assignment.create` builds when no matching document exists. -/
def freshSubmission (newId : OId) (userId : OId) (courseId title description answer : String)
    (now : Time) : AssignmentDoc :=
  { id := newId, student := some userId, course := courseId, batch := none,
    moduleIndex := none, title := title, description := description, dueDate := none,
    createdBy := userId, submission := some ⟨answer, now⟩, review := none,
    status := .submitted }

/-- `submitAssignment` of the cached assignment controller (lines 366-424): 403 unless
the caller is a student; find an assignment for (course, title) owned by the caller or
unassigned; create one with status `submitted` when none exists, otherwise mutate the
found document in place; then `delPattern('assignments:*')`. -/
def submitAssignmentCached (st : AppState) (user : UserDoc)
    (courseId title description answer : String) (now : Time) (newId : OId) :
    Except AppError (AppState × AssignmentDoc) :=
  if user.role != .student then
    .error (.forbidden "Only students can submit assignments")
  else
    match st.assignments.find? (submitTargets courseId title user.id) with
    | none =>
      let a := freshSubmission newId user.id courseId title description answer now
      match st.cache.delPattern "assignments:*" with
      | .error e => .error (.internal e)
      | .ok cache1 =>
        .ok ({ st with assignments := st.assignments ++ [a], cache := cache1 }, a)
    | some a =>
      let a1 := submittedUpdate a user.id answer now
      let docs1 := saveAssignment st.assignments a1
      match st.cache.delPattern "assignments:*" with
      | .error e => .error (.internal e)
      | .ok cache1 => .ok ({ st with assignments := docs1, cache := cache1 }, a1)

/-! ## Cache purge lemmas -/

/-- A live cache connection none of whose read/purge-path calls raises. -/
def RedisClientState.healthy (rc : RedisClientState) : Bool :=
  rc.isConnected &&
    (match rc.client with
     | some b => !b.failGet && !b.failDel && !b.failKeys
     | none => false)

/-- The keyspace left behind by `delPattern`: every key listed by
`keys(pattern)` has been deleted. -/
def purgedStore (store : List (String × String)) (pattern : String) :
    List (String × String) :=
  store.filter
    (fun p => !(((store.filter (fun q => globMatch pattern q.1)).map Prod.fst).contains p.1))

/-! ## Concrete fixtures shared by the counterexamples and witnesses -/

/-- A live backend holding one cached assignment listing. -/
def stockBackend : RedisBackend :=
  { store := [("assignments:pending", "STALE")], failGet := false, failSet := false,
    failDel := false, failKeys := false }

/-- A connected, never-failing cache client over `stockBackend`. -/
def stockCache : RedisClientState :=
  { client := some stockBackend, isConnected := true }

/-- A submitted assignment awaiting review. -/
def submittedHw : AssignmentDoc :=
  { id := "a1", student := some "s1", course := "c1", batch := none, moduleIndex := none,
    title := "HW1", description := "desc", dueDate := none, createdBy := "t1",
    submission := some ⟨"answer", 3⟩, review := none, status := .submitted }

/-- A store with one submitted assignment and the cached listing above. -/
def stockState : AppState :=
  { courses := [], assignments := [submittedHw], cache := stockCache }

/-- `submittedHw` after the admin review at time 7. -/
def reviewedHw : AssignmentDoc :=
  { submittedHw with review := some ⟨"good", "t1", 7⟩, status := .reviewed }

/-- A course body for `Course.create`. -/
def freshCourse : CourseDoc :=
  { id := "c9", title := "T", batch := ⟨"B1", 0, none⟩, isPublished := true }

/-- A pending assignment (never submitted). -/
def pendingHw : AssignmentDoc :=
  { submittedHw with id := "a2", submission := none, status := .pending }

/-- A store with one pending assignment and the cached listing. -/
def pendingState : AppState :=
  { courses := [], assignments := [pendingHw], cache := stockCache }

/-- `pendingHw` after the cached controller review at time 9. -/
def pendingReviewed : AssignmentDoc :=
  { pendingHw with review := some ⟨"fb", "t9", 9⟩, status := .reviewed }

/-- The mutation the review handlers apply: review sub-record plus `reviewed` status. -/
def reviewedDoc (a : AssignmentDoc) (feedback : String) (reviewer : OId) (now : Time) :
    AssignmentDoc :=
  { a with review := some ⟨feedback, reviewer, now⟩, status := .reviewed }

/-- The student who owns `submittedHw`. -/
def studentUser : UserDoc :=
  { id := "s1", name := "Stu", email := "stu@example.com", role := .student,
    isActive := true }

/-! ## Enrollment and lesson progress
(`Enrollment.model`, `Progress.model`, and the two `markLessonComplete`
implementations: count-based in `src/unnamed/part_003`, increment-based in
`src/unnamed/part_004`) -/

/-- An enrollment document. `progress` is `none` when the stored JavaScript number is
non-finite (the `Infinity` produced by a division by zero); otherwise
`some` of the integral value the code stores. -/
structure Enrollment where
  id : OId
  student : OId
  course : OId
  enrolledAt : Time
  progress : Option Int
  completedLessons : Nat
  totalLessons : Nat
  isCompleted : Bool
  completedAt : Option Time
deriving DecidableEq, Repr

/-- A `Progress` (lesson-completion) document; the schema has a unique index on the
(student, course, moduleIndex, lessonIndex) tuple. -/
structure ProgressRec where
  student : OId
  course : OId
  moduleIndex : Nat
  lessonIndex : Nat
  completedAt : Time
deriving DecidableEq, Repr

/-- The state the progress tracker reads and writes. -/
structure StudentState where
  enrollments : List Enrollment
  progressRecs : List ProgressRec
deriving DecidableEq, Repr

/-- `Math.round((completedLessons / totalLessons) * 100)` in JavaScript: when
`totalLessons` is 0 the division yields a non-finite number (`Infinity` for the
positive numerators this code produces), which `Math.round` preserves — modelled as
`none`. -/
def progressPercent (completed total : Nat) : Option Int :=
  if total = 0 then none
  else some (jsRoundPct completed total)

/-- Whether a `Progress` document for the 4-tuple already exists. -/
def lessonRecorded (recs : List ProgressRec) (sid cid : OId) (mi li : Nat) : Bool :=
  recs.any (fun r =>
    r.student == sid && r.course == cid && r.moduleIndex == mi && r.lessonIndex == li)

/-- `Progress.countDocuments({ student, course })`. -/
def completedCount (recs : List ProgressRec) (sid cid : OId) : Nat :=
  (recs.filter (fun r => r.student == sid && r.course == cid)).length

/-- `Enrollment.findByIdAndUpdate(enrollment._id, ...)` / `enrollment.save()`:
persist the updated enrollment under its `_id`. -/
def replaceEnrollment (es : List Enrollment) (e : Enrollment) : List Enrollment :=
  es.map (fun x => if x.id == e.id then e else x)

/-- `markLessonComplete` of `student.controller.ts` (`src/unnamed/part_004` lines
55-107), the increment-based implementation routed at
`PUT /api/student/enrollments/:id/lesson/complete`: 404 when the enrollment is
missing, 400 when `totalLessons` is 0, early 200 when already complete, else
increment `completedLessons` by one, recompute `progress`, and on crossing the
boundary set `isCompleted` and `completedAt`. -/
def markLessonCompleteIncr (enrollments : List Enrollment) (enrollmentId studentId : OId)
    (now : Time) : Except AppError (List Enrollment × Enrollment) :=
  match enrollments.find? (fun e => e.id == enrollmentId && e.student == studentId) with
  | none => .error (.notFound "Enrollment not found")
  | some e =>
    if e.totalLessons == 0 then .error (.badRequest "Course has no lessons")
    else if e.completedLessons >= e.totalLessons then
      .ok (enrollments, e)
    else
      let completed := e.completedLessons + 1
      let prog : Option Int :=
        if e.totalLessons > 0 then some (jsRoundPct completed e.totalLessons)
        else some 0
      let e1 := { e with completedLessons := completed, progress := prog }
      let e2 :=
        if completed >= e.totalLessons then
          { e1 with isCompleted := true, completedAt := some now }
        else e1
      .ok (replaceEnrollment enrollments e2, e2)

/-- `markLessonComplete` of the count-based student controller (`src/unnamed/part_003`
lines 109-164): 403 when not enrolled; `findOneAndUpdate(..., { upsert: true })` of
the `Progress` record for the 4-tuple (no-op when it already exists); recount
`completedLessons`; `progress = Math.round(count/totalLessons*100)`;
`isCompleted = (progress === 100)`; update the enrollment, spreading in
`completedAt: new Date()` exactly when `isCompleted` holds. Returns the `progress`
value of the 200 response. -/
def markLessonCompleteCount (s : StudentState) (studentId courseId : OId)
    (moduleIndex lessonIndex : Nat) (now : Time) :
    Except AppError (StudentState × Option Int) :=
  match s.enrollments.find? (fun e => e.student == studentId && e.course == courseId) with
  | none => .error (.forbidden "Not enrolled in this course")
  | some e =>
    let recs :=
      if lessonRecorded s.progressRecs studentId courseId moduleIndex lessonIndex
      then s.progressRecs
      else s.progressRecs ++ [⟨studentId, courseId, moduleIndex, lessonIndex, now⟩]
    let completedLessons := completedCount recs studentId courseId
    let progress := progressPercent completedLessons e.totalLessons
    let isCompleted := progress == some 100
    let e1 := { e with
      completedLessons := completedLessons
      progress := progress
      isCompleted := isCompleted
      completedAt := if isCompleted then some now else e.completedAt }
    .ok ({ enrollments := replaceEnrollment s.enrollments e1, progressRecs := recs },
      progress)

/-- The enrollment list a `markLessonCompleteIncr` result persisted (empty on error). -/
def enrollmentsAfter (r : Except AppError (List Enrollment × Enrollment)) :
    List Enrollment :=
  match r with
  | .ok (es, _) => es
  | .error _ => []

/-- The state a `markLessonCompleteCount` result persisted (empty on error). -/
def stateAfter (r : Except AppError (StudentState × Option Int)) : StudentState :=
  match r with
  | .ok (s, _) => s
  | .error _ => ⟨[], []⟩

/-- The `completedLessons` of the enrollment with the given id. -/
def completedOf (es : List Enrollment) (id : OId) : Option Nat :=
  (es.find? (fun e => e.id == id)).map (fun e => e.completedLessons)

/-- A fresh enrollment in a three-lesson course. -/
def threeLessonEnrollment : Enrollment :=
  { id := "e1", student := "s1", course := "c1", enrolledAt := 0, progress := some 0,
    completedLessons := 0, totalLessons := 3, isCompleted := false, completedAt := none }

/-- A fresh enrollment in a degenerate course with no lessons (`totalLessons = 0`,
exactly what `enrollInCourse` creates for a course whose modules hold no lessons). -/
def zeroLessonEnrollment : Enrollment :=
  { id := "e0", student := "s1", course := "c0", enrolledAt := 0, progress := some 0,
    completedLessons := 0, totalLessons := 0, isCompleted := false, completedAt := none }

/-- A fresh enrollment in a one-lesson course. -/
def oneLessonEnrollment : Enrollment :=
  { id := "e2", student := "s1", course := "c2", enrolledAt := 0, progress := some 0,
    completedLessons := 0, totalLessons := 1, isCompleted := false, completedAt := none }

/-- The completion record the first count-based call at time 10 creates. -/
def lessonRec10 : ProgressRec :=
  ⟨"s1", "c2", 0, 0, 10⟩

/-- `oneLessonEnrollment` after the first count-based completion at time 10. -/
def oneLessonDone10 : Enrollment :=
  { oneLessonEnrollment with
    completedLessons := 1,
    progress := some 100,
    isCompleted := true,
    completedAt := some 10 }

/-- `oneLessonDone10` after the duplicate count-based call at time 20: `completedAt`
has been overwritten. -/
def oneLessonDone20 : Enrollment :=
  { oneLessonDone10 with completedAt := some 20 }

/-! ## Quiz scoring (`Quiz.model`, `submitQuiz` of `quiz.controller.ts`, and
`takeQuiz` of `src/unnamed/part_003`) -/

/-- A quiz question (`quizQuestionSchema`): prompt, options, the correct option
index. `submitQuiz` additionally reads `q.points || 1`, although the schema declares
no `points` path — so every persisted question carries `none` — and we model the read
as an optional natural weight. -/
structure QuizQuestion where
  question : String
  options : List String
  correctAnswer : Int
  points : Option Nat
deriving DecidableEq, Repr

/-- `q.points || 1`: the JavaScript falsy values (`undefined`, 0) fall back to 1. -/
def questionWeight (q : QuizQuestion) : Nat :=
  match q.points with
  | some p => if p = 0 then 1 else p
  | none => 1

/-- `quiz.passingScore || 70`: a stored 0 is falsy and also falls back to 70. -/
def effectivePassingScore (passingScore : Nat) : Nat :=
  if passingScore = 0 then 70 else passingScore

/-- A quiz document (`quizSchema`): `passingScore` defaults to 70 in the schema. -/
structure QuizDoc where
  id : OId
  course : Option OId
  title : String
  questions : List QuizQuestion
  passingScore : Nat
deriving DecidableEq, Repr

/-- `answers[index] === question.correctAnswer`: an out-of-range access reads
`undefined`, which compares unequal to every number. -/
def answerCorrect (answers : List Int) (i : Nat) (q : QuizQuestion) : Bool :=
  answers.get? i == some q.correctAnswer

/-- The `score` accumulator of `submitQuiz` (lines 58-75): threaded through
`quiz.questions.map((question, index) => ...)`, adding the question's weight exactly
when the answer is correct. -/
def submitScore (questions : List QuizQuestion) (answers : List Int) : Nat :=
  questions.enum.foldl
    (fun acc iq => acc + (if answerCorrect answers iq.1 iq.2 then questionWeight iq.2 else 0))
    0

/-- `totalPoints = quiz.questions.reduce((sum, q) => sum + (q.points || 1), 0)`. -/
def totalPoints (questions : List QuizQuestion) : Nat :=
  questions.foldl (fun acc q => acc + questionWeight q) 0

/-- `percentage = Math.round((score / totalPoints) * 100)`; `none` models the NaN of
the 0/0 case (a quiz with no questions). -/
def submitPercentage (questions : List QuizQuestion) (answers : List Int) : Option Nat :=
  if totalPoints questions = 0 then none
  else some (jsRoundPct (submitScore questions answers) (totalPoints questions))

/-- `passed = percentage >= (quiz.passingScore || 70)`; a NaN percentage compares
false. -/
def submitPassed (quiz : QuizDoc) (answers : List Int) : Bool :=
  match submitPercentage quiz.questions answers with
  | none => false
  | some p => p ≥ effectivePassingScore quiz.passingScore

/-- The score the claim describes: the sum over question indices of that question's
weight when the answer equals the correct-option index, and 0 otherwise. -/
def specScore (questions : List QuizQuestion) (answers : List Int) : Nat :=
  ∑ i ∈ Finset.range questions.length,
    (match questions.get? i with
     | some q => if answerCorrect answers i q then questionWeight q else 0
     | none => 0)

/-- `correctAnswers` of `takeQuiz` (`src/unnamed/part_003` lines 228-233): the number
of questions whose correct index equals the submitted answer at the same position. -/
def takeQuizCorrectCount (questions : List QuizQuestion) (answers : List Int) : Nat :=
  (questions.enum.filter (fun iq => answerCorrect answers iq.1 iq.2)).length

/-- `score = Math.round((correctAnswers / quiz.questions.length) * 100)` in
`takeQuiz`: the score is a rounded percentage of correct answers, not a weighted sum;
`none` models the NaN of an empty quiz. -/
def takeQuizScore (questions : List QuizQuestion) (answers : List Int) : Option Nat :=
  if questions.length = 0 then none
  else some (jsRoundPct (takeQuizCorrectCount questions answers) questions.length)

/-- `passed = score >= quiz.passingScore` in `takeQuiz` (no `|| 70` default there). -/
def takeQuizPassed (quiz : QuizDoc) (answers : List Int) : Bool :=
  match takeQuizScore quiz.questions answers with
  | none => false
  | some sc => sc ≥ quiz.passingScore

/-- A single-weight question whose correct option is index 0. -/
def oneQuestion : QuizQuestion :=
  ⟨"Q", ["a", "b"], 0, none⟩

/-! ## Cache key construction
(`getCourses` of `course.controller.ts` line 51 and `getAllAssignments` of
`assignment.controller.ts` lines 17-25) -/

/-- A decimal digit character. -/
def digitChar (n : Nat) : Char :=
  Char.ofNat (48 + n)

/-- Decimal digits of a natural, with explicit fuel so the recursion is structural. -/
def natDigitsAux : Nat → Nat → List Char
  | 0, _ => []
  | fuel + 1, n =>
    if n < 10 then [digitChar n]
    else natDigitsAux fuel (n / 10) ++ [digitChar (n % 10)]

/-- The decimal rendering `JSON.stringify` gives the natural numbers this code
serializes (page and limit). -/
def numRepr (n : Nat) : String :=
  ⟨natDigitsAux (n + 1) n⟩

/-- A JSON value of the shapes the cache key builders feed to `JSON.stringify`. -/
inductive JVal
  | str (s : String)
  | num (n : Nat)
  | arr (xs : List JVal)
  | obj (fields : List (String × JVal))

mutual

/-- `JSON.stringify`, restricted to the value shapes the key builders use: object
fields are emitted in insertion order (ECMA-262 keeps string keys in insertion
order); no escaping is modelled because the filter values this code serializes
contain no quotes or control characters. -/
def JVal.stringify : JVal → String
  | .str s => "\"" ++ s ++ "\""
  | .num n => numRepr n
  | .arr xs => "[" ++ stringifyList xs ++ "]"
  | .obj fs => "\x7b" ++ stringifyFields fs ++ "\x7d"

/-- Comma-separated serialization of a JSON array's elements. -/
def stringifyList : List JVal → String
  | [] => ""
  | [v] => JVal.stringify v
  | v :: rest => JVal.stringify v ++ "," ++ stringifyList rest

/-- Comma-separated serialization of a JSON object's fields, in insertion order. -/
def stringifyFields : List (String × JVal) → String
  | [] => ""
  | [(k, v)] => "\"" ++ k ++ "\":" ++ JVal.stringify v
  | (k, v) :: rest => "\"" ++ k ++ "\":" ++ JVal.stringify v ++ "," ++ stringifyFields rest

end

/-- The cache key of `getCourses`:
`const cacheKey = 'courses:' + JSON.stringify({ query, sort, page, limit })`. -/
def buildCoursesCacheKey (query sort : List (String × JVal)) (page limit : Nat) : String :=
  "courses:" ++ JVal.stringify (.obj
    [("query", .obj query), ("sort", .obj sort), ("page", .num page), ("limit", .num limit)])

/-- The object `getAllAssignments` serializes:
`{ course, student, status, page, limit, search }` in that insertion order, with
`undefined`-valued fields omitted by `JSON.stringify`. -/
def assignmentsQueryFields (course student status : Option JVal) (page limit : JVal)
    (search : Option JVal) : List (String × JVal) :=
  (match course with | some v => [("course", v)] | none => []) ++
  (match student with | some v => [("student", v)] | none => []) ++
  (match status with | some v => [("status", v)] | none => []) ++
  [("page", page), ("limit", limit)] ++
  (match search with | some v => [("search", v)] | none => [])

/-- The cache key of `getAllAssignments`:
`'assignments:all:' + user._id + ':' + JSON.stringify({course, student, status, page,
limit, search})`. -/
def buildAssignmentsAllKey (userId : String) (course student status : Option JVal)
    (page limit : JVal) (search : Option JVal) : String :=
  "assignments:all:" ++ userId ++ ":" ++
    JVal.stringify (.obj (assignmentsQueryFields course student status page limit search))

/-- The key-to-value map a filter object denotes (first binding wins, as in a
JavaScript object where later duplicate keys overwrite — the builders never produce
duplicates). -/
def lookupField (fields : List (String × JVal)) (k : String) : Option JVal :=
  (fields.find? (fun p => p.1 == k)).map Prod.snd

/-! ## Batch assignment creation (`createAssignment` of the admin assignment
controller, second document of `src/unnamed/part_001`, lines 197-261) -/

/-- The filter `User.find({ role: 'student', batch: batchName })`: a persisted user
document matches iff its role is `student` and its raw `batch` field equals the name.
The user schema declares no `batch` path (`src/unnamed/part_008` lines 62-118), so
`userBatch` is `none` for every persisted user and the second conjunct never holds. -/
def userMatchesStudentBatch (u : UserDoc) (batchName : String) : Bool :=
  u.role == .student && userBatch u == some batchName

/-- The template fields `createAssignment` reads from the request body. -/
structure AssignmentTemplate where
  moduleIndex : Option Nat
  title : String
  description : String
  dueDate : Option Time
deriving DecidableEq, Repr

/-- The batch branch of `createAssignment`: verify the course exists, verify
`course.batch.name === batch` (404 otherwise), enumerate
`User.find({ role: 'student', batch })`, create one `pending` assignment per matched
student sharing the template's fields, and report the count created
(`assignments.length`). `freshIds i` supplies the `_id` of the i-th created
document. -/
def createAssignmentBatch (courses : List CourseDoc) (users : List UserDoc)
    (courseId : OId) (batchName : String) (tpl : AssignmentTemplate)
    (createdBy : OId) (freshIds : Nat → OId) :
    Except AppError (List AssignmentDoc × Nat) :=
  match courses.find? (fun c => c.id == courseId) with
  | none => .error (.notFound "Course not found")
  | some course =>
    if course.batch.name != batchName then
      .error (.notFound "Batch not found in this course")
    else
      let students := users.filter (fun u => userMatchesStudentBatch u batchName)
      let created := students.enum.map (fun iu =>
        ({ id := freshIds iu.1, student := some iu.2.id, course := courseId,
           batch := some batchName, moduleIndex := tpl.moduleIndex, title := tpl.title,
           description := tpl.description, dueDate := tpl.dueDate,
           createdBy := createdBy, submission := none, review := none,
           status := .pending } : AssignmentDoc))
      .ok (created, created.length)

/-- The students actually enrolled in the batch named `b`: the distinct holders of an
enrollment in a course whose `batch.name` is `b` — the spec's notion of the batch's
cohort. -/
def enrolledStudentsInBatch (courses : List CourseDoc) (enrollments : List Enrollment)
    (b : String) : List OId :=
  ((enrollments.filter (fun e =>
      (courses.find? (fun c => c.id == e.course)).any
        (fun c => c.batch.name == b))).map (fun e => e.student)).dedup

/-- A course offered to "Batch 1". -/
def batchCourse : CourseDoc :=
  { id := "c1", title := "T", batch := ⟨"Batch 1", 0, none⟩, isPublished := true }

/-- A second student. -/
def studentUser2 : UserDoc :=
  { id := "s2", name := "Stu2", email := "stu2@example.com", role := .student,
    isActive := true }

/-- `studentUser`'s enrollment in the Batch 1 course. -/
def batchEnrollment1 : Enrollment :=
  { id := "en1", student := "s1", course := "c1", enrolledAt := 0, progress := some 0,
    completedLessons := 0, totalLessons := 3, isCompleted := false, completedAt := none }

/-- `studentUser2`'s enrollment in the Batch 1 course. -/
def batchEnrollment2 : Enrollment :=
  { id := "en2", student := "s2", course := "c1", enrolledAt := 0, progress := some 0,
    completedLessons := 0, totalLessons := 3, isCompleted := false, completedAt := none }

/-- An assignment template. -/
def hwTemplate : AssignmentTemplate :=
  { moduleIndex := some 0, title := "HW1", description := "desc", dueDate := some 100 }

/-- A filter `{category: "Web", tags: "js"}` inserted category-first. -/
def filterCategoryFirst : List (String × JVal) :=
  [("category", .str "Web"), ("tags", .str "js")]

/-- The same map inserted tags-first. -/
def filterTagsFirst : List (String × JVal) :=
  [("tags", .str "js"), ("category", .str "Web")]

/-! ## Lemmas and theorems -/

/-- `jsRoundPct` agrees with `Math.round((a/b)*100)` read as exact rational
arithmetic. -/
theorem jsRoundPct_eq (a b : ℕ) (hb : b ≠ 0) :
    (jsRoundPct a b : ℤ) = jsRound ((a : ℚ) / (b : ℚ) * 100) := by
  unfold jsRound jsRoundPct
  have h1 : (a : ℚ) / (b : ℚ) * 100 + 1/2 = ((200 * a + b : ℕ) : ℚ) / ((2 * b : ℕ) : ℚ) := by
    have hbq : (b : ℚ) ≠ 0 := Nat.cast_ne_zero.mpr hb
    field_simp
    ring
  rw [h1]
  have h2 : (0 : ℚ) ≤ ((200 * a + b : ℕ) : ℚ) / ((2 * b : ℕ) : ℚ) := by positivity
  rw [← Int.natCast_floor_eq_floor h2, Nat.floor_div_nat]
  have h3 : ⌊((200 * a + b : ℕ) : ℚ)⌋₊ = 200 * a + b := Nat.floor_natCast _
  rw [h3]

theorem find?_filtered_none (store : List (String × String)) (pattern k : String)
    (hk : globMatch pattern k = true) :
    (purgedStore store pattern).find? (fun p => p.1 == k) = none := by
  unfold purgedStore
  apply List.find?_eq_none.mpr
  intro p hp hpk
  have hmem := (List.mem_filter.mp hp).1
  have hcon := (List.mem_filter.mp hp).2
  have hk1 : p.1 = k := by simpa using hpk
  have hin : ((store.filter (fun q => globMatch pattern q.1)).map Prod.fst).contains p.1 = true := by
    apply List.elem_iff.mpr
    exact List.mem_map.mpr ⟨p, List.mem_filter.mpr ⟨hmem, by rw [hk1]; exact hk⟩, rfl⟩
  simp only [Bool.not_eq_true'] at hcon
  rw [hin] at hcon
  exact Bool.noConfusion hcon

theorem find?_none_of_no_matching (store : List (String × String)) (pattern k : String)
    (hk : globMatch pattern k = true)
    (hempty : ((store.filter (fun q => globMatch pattern q.1)).map Prod.fst).length = 0) :
    store.find? (fun p => p.1 == k) = none := by
  apply List.find?_eq_none.mpr
  intro p hp hpk
  have hk1 : p.1 = k := by simpa using hpk
  have hmem : p ∈ store.filter (fun q => globMatch pattern q.1) :=
    List.mem_filter.mpr ⟨hp, by rw [hk1]; exact hk⟩
  rw [List.length_map, List.length_eq_zero] at hempty
  rw [hempty] at hmem
  exact absurd hmem (List.not_mem_nil p)

/-- On a healthy connection, `delPattern` succeeds and afterwards no key matching the
pattern is readable any more. -/
theorem delPattern_purges (rc : RedisClientState) (pattern : String)
    (h : rc.healthy = true) :
    ∃ rc1, rc.delPattern pattern = .ok rc1 ∧
      ∀ k, globMatch pattern k = true → rc1.get k = .ok none := by
  cases hc : rc.client with
  | none =>
    unfold RedisClientState.healthy at h
    rw [hc] at h
    simp at h
  | some b =>
    unfold RedisClientState.healthy at h
    rw [hc] at h
    simp only [Bool.and_eq_true, Bool.not_eq_true'] at h
    obtain ⟨hconn, ⟨hfg, hfd⟩, hfk⟩ := h
    have hguard : (!rc.isConnected || rc.client.isNone) = false := by
      simp [hconn, hc]
    by_cases hl :
        ((b.store.filter (fun q => globMatch pattern q.1)).map Prod.fst).length > 0
    · refine ⟨{ rc with client := some { b with store := purgedStore b.store pattern } },
        ?_, ?_⟩
      · have hl2 : 0 < (List.filter (fun q => globMatch pattern q.1) b.store).length := by
          simpa using hl
        simp [RedisClientState.delPattern, hguard, hc, hconn, RedisBackend.keysRaw, hfk, hl2,
          RedisBackend.delManyRaw, hfd, purgedStore]
      · intro k hk
        simp [RedisClientState.get, hconn, RedisBackend.getRaw, hfg,
          find?_filtered_none b.store pattern k hk]
    · refine ⟨rc, ?_, ?_⟩
      · unfold RedisClientState.delPattern
        rw [hguard, hc]
        simp only [Bool.false_eq_true, if_false]
        unfold RedisBackend.keysRaw
        rw [hfk]
        simp only [Bool.false_eq_true, if_false, hl, if_false]
      · intro k hk
        unfold RedisClientState.get
        rw [hguard, hc]
        simp only [Bool.false_eq_true, if_false]
        unfold RedisBackend.getRaw
        rw [hfg]
        simp only [Bool.false_eq_true, if_false]
        rw [find?_none_of_no_matching b.store pattern k hk (by omega)]
        rfl

end CourseMaster

namespace CourseMaster

/-- Claim C1 counterexample: `reviewAssignment` of the admin assignment controller
(`src/unnamed/part_001` lines 362-394) is a successful mutation of the cached resource
type "assignments" (an assignment review), yet it performs no purge: the pre-mutation
cached entry `assignments:pending` is still readable after the call returns success,
so a read starting strictly after the mutation's response observes pre-mutation cached
data, contradicting the claim. -/
theorem adminReview_leaves_stale_cache :
    adminReviewAssignment stockState "a1" "good" "t1" 7 =
      .ok ({ stockState with assignments := [reviewedHw] }, reviewedHw) ∧
    ({ stockState with assignments := [reviewedHw] } : AppState).cache.get
      "assignments:pending" = .ok (some "STALE") ∧
    globMatch "assignments:*" "assignments:pending" = true := by
  refine ⟨?_, ?_, ?_⟩ <;> decide

/-- Claim C1 (amended): with a healthy cache connection, the mutations routed through
the controllers that do call the invalidation path — course create/update/delete, and
the cached assignment controller's submit and review — leave no key matching the
resource's list pattern readable when they return success (the purge runs between the
system-of-record write and the response in this sequential embedding). The admin
assignment controller's review and update, by contrast, return success with the cache
exactly as they found it, so stale assignment listings survive those mutations. -/
theorem invalidation_after_mutation_amended (st : AppState)
    (h : st.cache.healthy = true) :
    (∀ body st1 c, createCourse st body = .ok (st1, c) →
      ∀ k, globMatch "courses:*" k = true → st1.cache.get k = .ok none) ∧
    (∀ cid body st1 c, updateCourse st cid body = .ok (st1, c) →
      ∀ k, globMatch "courses:*" k = true → st1.cache.get k = .ok none) ∧
    (∀ cid st1 c, deleteCourse st cid = .ok (st1, c) →
      ∀ k, globMatch "courses:*" k = true → st1.cache.get k = .ok none) ∧
    (∀ user cid title descr answer now newId st1 a,
      submitAssignmentCached st user cid title descr answer now newId = .ok (st1, a) →
      ∀ k, globMatch "assignments:*" k = true → st1.cache.get k = .ok none) ∧
    (∀ aid fb uid role now st1 r,
      reviewAssignmentCached st aid fb uid role now = .ok (st1, r) →
      ∀ k, globMatch "assignments:*" k = true → st1.cache.get k = .ok none) ∧
    (∀ aid fb rev now st1 a,
      adminReviewAssignment st aid fb rev now = .ok (st1, a) → st1.cache = st.cache) ∧
    (∀ aid t d dd st1 a,
      adminUpdateAssignment st aid t d dd = .ok (st1, a) → st1.cache = st.cache) := by
  obtain ⟨rcC, hdelC, hpurgeC⟩ := delPattern_purges st.cache "courses:*" h
  obtain ⟨rcA, hdelA, hpurgeA⟩ := delPattern_purges st.cache "assignments:*" h
  refine ⟨?_, ?_, ?_, ?_, ?_, ?_, ?_⟩
  · intro body st1 c hs k hk
    unfold createCourse at hs
    rw [hdelC] at hs
    cases hs
    exact hpurgeC k hk
  · intro cid body st1 c hs k hk
    unfold updateCourse at hs
    split at hs
    · exact Except.noConfusion hs
    · rw [hdelC] at hs
      cases hs
      exact hpurgeC k hk
  · intro cid st1 c hs k hk
    unfold deleteCourse at hs
    split at hs
    · exact Except.noConfusion hs
    · rw [hdelC] at hs
      cases hs
      exact hpurgeC k hk
  · intro user cid title descr answer now newId st1 a hs k hk
    unfold submitAssignmentCached at hs
    split at hs
    · exact Except.noConfusion hs
    · split at hs
      · rw [hdelA] at hs
        cases hs
        exact hpurgeA k hk
      · rw [hdelA] at hs
        cases hs
        exact hpurgeA k hk
  · intro aid fb uid role now st1 r hs k hk
    unfold reviewAssignmentCached at hs
    split at hs
    · exact Except.noConfusion hs
    · split at hs
      · exact Except.noConfusion hs
      · rw [hdelA] at hs
        cases hs
        exact hpurgeA k hk
  · intro aid fb rev now st1 a hs
    unfold adminReviewAssignment at hs
    split at hs
    · exact Except.noConfusion hs
    · split at hs
      · exact Except.noConfusion hs
      · cases hs
        rfl
  · intro aid t d dd st1 a hs
    unfold adminUpdateAssignment at hs
    split at hs
    · exact Except.noConfusion hs
    · cases hs
      rfl

/-- Claim C1 witness: on the concrete healthy state, a course creation returns with
every `courses:*` key unreadable. -/
theorem invalidation_after_mutation_witness :
    stockState.cache.healthy = true ∧
    ({ courses := [freshCourse], assignments := [submittedHw], cache := stockCache } :
        AppState).cache.get "courses:X" = .ok none :=
  ⟨by decide,
    (invalidation_after_mutation_amended stockState (by decide)).1 freshCourse
      ⟨[freshCourse], [submittedHw], stockCache⟩ freshCourse (by decide)
      "courses:X" (by decide)⟩

/-- `delPattern` never propagates an error, whatever the state (helper). -/
theorem delPattern_isOk (rc : RedisClientState) (pattern : String) :
    ∃ rc1, rc.delPattern pattern = .ok rc1 := by
  unfold RedisClientState.delPattern
  split
  · exact ⟨rc, rfl⟩
  · split
    · exact ⟨rc, rfl⟩
    · split
      · exact ⟨rc, rfl⟩
      · split
        · split
          · exact ⟨_, rfl⟩
          · exact ⟨rc, rfl⟩
        · exact ⟨rc, rfl⟩

/-- Claim C4 counterexample: `reviewAssignment` of the cached assignment controller
(`assignment.controller.ts` lines 235-282) checks no status at all: called on an
assignment whose status is `pending`, it succeeds and flips the status to `reviewed`,
whereas the claim requires such a call to fail with InvalidState and leave the
assignment unchanged. -/
theorem reviewCached_reviews_pending :
    pendingHw.status = .pending ∧
    reviewAssignmentCached pendingState "a2" "fb" "t9" Role.teacher 9 =
      .ok ({ courses := [], assignments := [pendingReviewed],
             cache := ⟨some ⟨[], false, false, false, false⟩, true⟩ },
        some pendingReviewed) ∧
    pendingReviewed.status = .reviewed := by
  refine ⟨rfl, ?_, rfl⟩
  decide

/-- Claim C4 (amended): the admin assignment controller's review enforces the guard —
on an assignment whose status is `pending` or already `reviewed` it fails with the 400
InvalidState error and no state is written, and on `submitted` it succeeds, writing the
review sub-record and the `reviewed` status in one save. The cached assignment
controller's review instead succeeds for any non-student caller regardless of the
assignment's current status, writing the review sub-record and the `reviewed` status. -/
theorem review_guard_amended (st : AppState) (aid : OId) (a : AssignmentDoc)
    (feedback : String) (reviewer : OId) (now : Time)
    (hfind : st.assignments.find? (fun x => x.id == aid) = some a) :
    (a.status ≠ .submitted →
      adminReviewAssignment st aid feedback reviewer now =
        .error (.badRequest "Assignment has not been submitted yet")) ∧
    (a.status = .submitted →
      adminReviewAssignment st aid feedback reviewer now =
        .ok ({ st with assignments :=
                 saveAssignment st.assignments (reviewedDoc a feedback reviewer now) },
          reviewedDoc a feedback reviewer now)) ∧
    (∀ role, role ≠ Role.student →
      ∃ st1, reviewAssignmentCached st aid feedback reviewer role now =
        .ok (st1, st1.assignments.find? (fun x => x.id == aid)) ∧
        st1.assignments =
          saveAssignment st.assignments (reviewedDoc a feedback reviewer now)) := by
  refine ⟨?_, ?_, ?_⟩
  · intro hst
    have hb : (a.status != AStatus.submitted) = true := bne_iff_ne.mpr hst
    unfold adminReviewAssignment
    rw [hfind]
    simp [hb]
  · intro hst
    have hb : (a.status != AStatus.submitted) = false := by
      simp [bne_iff_ne, hst]
    unfold adminReviewAssignment
    rw [hfind]
    simp [hb, reviewedDoc]
  · intro role hrole
    obtain ⟨rc1, h1⟩ := delPattern_isOk st.cache "assignments:*"
    have hb : (role == Role.student) = false := by
      simp [hrole]
    refine ⟨{ st with
        assignments := saveAssignment st.assignments (reviewedDoc a feedback reviewer now),
        cache := rc1 }, ?_, rfl⟩
    unfold reviewAssignmentCached
    rw [hb]
    simp only [Bool.false_eq_true, if_false]
    rw [hfind, h1]
    rfl

/-- Claim C4 witness: the amended theorem applied to the concrete submitted
assignment. -/
theorem review_guard_witness :
    stockState.assignments.find? (fun x => x.id == "a1") = some submittedHw ∧
    adminReviewAssignment stockState "a1" "good" "t1" 7 =
      .ok ({ stockState with assignments := saveAssignment stockState.assignments reviewedHw },
        reviewedHw) :=
  ⟨by decide,
    (review_guard_amended stockState "a1" submittedHw "good" "t1" 7 (by decide)).2.1 rfl⟩

/-- Claim C10: when a student submits for a (course, title) pair and a matching
document exists (owned by them or unassigned), `submitAssignment` mutates that
document in place — setting its student to the caller, overwriting its submission with
the new answer and timestamp, and setting status `submitted` regardless of its
previous status — creating nothing; only when no document matches is a new one created
with status `submitted`. -/
theorem submit_find_or_create (st : AppState) (user : UserDoc)
    (cid title descr answer : String) (now : Time) (newId : OId)
    (hrole : user.role = Role.student) :
    (st.assignments.find? (submitTargets cid title user.id) = none →
      ∃ cache1, submitAssignmentCached st user cid title descr answer now newId =
        .ok ({ courses := st.courses,
               assignments := st.assignments ++
                 [freshSubmission newId user.id cid title descr answer now],
               cache := cache1 },
          freshSubmission newId user.id cid title descr answer now) ∧
        (freshSubmission newId user.id cid title descr answer now).status = .submitted) ∧
    (∀ a, st.assignments.find? (submitTargets cid title user.id) = some a →
      ∃ cache1, submitAssignmentCached st user cid title descr answer now newId =
        .ok ({ courses := st.courses,
               assignments := saveAssignment st.assignments (submittedUpdate a user.id answer now),
               cache := cache1 },
          submittedUpdate a user.id answer now) ∧
        (saveAssignment st.assignments (submittedUpdate a user.id answer now)).length =
          st.assignments.length ∧
        (submittedUpdate a user.id answer now).id = a.id ∧
        (submittedUpdate a user.id answer now).student = some user.id ∧
        (submittedUpdate a user.id answer now).submission = some ⟨answer, now⟩ ∧
        (submittedUpdate a user.id answer now).status = .submitted ∧
        (submittedUpdate a user.id answer now).title = a.title ∧
        (submittedUpdate a user.id answer now).description = a.description ∧
        (submittedUpdate a user.id answer now).course = a.course) := by
  have hb : (user.role != Role.student) = false := by
    simp [hrole]
  constructor
  · intro hnone
    obtain ⟨rc1, h1⟩ := delPattern_isOk st.cache "assignments:*"
    refine ⟨rc1, ?_, rfl⟩
    unfold submitAssignmentCached
    rw [hb]
    simp only [Bool.false_eq_true, if_false]
    rw [hnone, h1]
  · intro a hsome
    obtain ⟨rc1, h1⟩ := delPattern_isOk st.cache "assignments:*"
    refine ⟨rc1, ?_, List.length_map _ _, rfl, rfl, rfl, rfl, rfl, rfl, rfl⟩
    unfold submitAssignmentCached
    rw [hb]
    simp only [Bool.false_eq_true, if_false]
    rw [hsome, h1]

/-- Claim C10 witness: the concrete student resubmits over their own existing
submitted assignment; the document is mutated in place and the list length is
unchanged. -/
theorem submit_find_or_create_witness :
    studentUser.role = Role.student ∧
    (∃ cache1, submitAssignmentCached stockState studentUser "c1" "HW1" "d2" "ans2" 11 "a9" =
      .ok ({ courses := stockState.courses,
             assignments := saveAssignment stockState.assignments
               (submittedUpdate submittedHw studentUser.id "ans2" 11),
             cache := cache1 },
        submittedUpdate submittedHw studentUser.id "ans2" 11) ∧
      (saveAssignment stockState.assignments
          (submittedUpdate submittedHw studentUser.id "ans2" 11)).length =
        stockState.assignments.length ∧
      (submittedUpdate submittedHw studentUser.id "ans2" 11).id = submittedHw.id ∧
      (submittedUpdate submittedHw studentUser.id "ans2" 11).student = some studentUser.id ∧
      (submittedUpdate submittedHw studentUser.id "ans2" 11).submission = some ⟨"ans2", 11⟩ ∧
      (submittedUpdate submittedHw studentUser.id "ans2" 11).status = .submitted ∧
      (submittedUpdate submittedHw studentUser.id "ans2" 11).title = submittedHw.title ∧
      (submittedUpdate submittedHw studentUser.id "ans2" 11).description = submittedHw.description ∧
      (submittedUpdate submittedHw studentUser.id "ans2" 11).course = submittedHw.course) :=
  ⟨rfl,
    (submit_find_or_create stockState studentUser "c1" "HW1" "d2" "ans2" 11 "a9" rfl).2
      submittedHw (by decide)⟩

/-- Claim C7: Every CacheStore operation is fail-open. Whatever the connection state,
the client, and whichever underlying calls raise, `get` never propagates an error and
`set`/`del`/`delPattern`/`connect` never propagate an error; in the degraded case
(disconnected or no client) `get` returns absent and the writes are exact no-ops; and
when the backing store is reachable but the underlying call itself raises, `get`
still returns absent and `set`/`del`/`delPattern` still return the state unchanged
(the `catch` blocks swallow the error and write nothing). -/
theorem cacheStore_fail_open (rc : RedisClientState) (env : RedisEnv)
    (key value pattern : String) (ttl : Nat) :
    (∃ v, rc.get key = .ok v) ∧
    (∃ rc1, rc.set key value ttl = .ok rc1) ∧
    (∃ rc2, rc.del key = .ok rc2) ∧
    (∃ rc3, rc.delPattern pattern = .ok rc3) ∧
    (∃ rc4, rc.connect env = .ok rc4) ∧
    ((rc.isConnected = false ∨ rc.client = none) →
      rc.get key = .ok none ∧
      rc.set key value ttl = .ok rc ∧
      rc.del key = .ok rc ∧
      rc.delPattern pattern = .ok rc) ∧
    (∀ b, rc.client = some b →
      (b.failGet = true → rc.get key = .ok none) ∧
      (b.failSet = true → rc.set key value ttl = .ok rc) ∧
      (b.failDel = true → rc.del key = .ok rc) ∧
      (b.failKeys = true ∨ b.failDel = true → rc.delPattern pattern = .ok rc)) := by
  constructor
  · unfold RedisClientState.get
    split
    · exact ⟨none, rfl⟩
    · split
      · exact ⟨none, rfl⟩
      · split
        · exact ⟨_, rfl⟩
        · exact ⟨none, rfl⟩
  constructor
  · unfold RedisClientState.set
    split
    · exact ⟨rc, rfl⟩
    · split
      · exact ⟨rc, rfl⟩
      · split
        · exact ⟨_, rfl⟩
        · exact ⟨rc, rfl⟩
  constructor
  · unfold RedisClientState.del
    split
    · exact ⟨rc, rfl⟩
    · split
      · exact ⟨rc, rfl⟩
      · split
        · exact ⟨_, rfl⟩
        · exact ⟨rc, rfl⟩
  constructor
  · unfold RedisClientState.delPattern
    split
    · exact ⟨rc, rfl⟩
    · split
      · exact ⟨rc, rfl⟩
      · split
        · exact ⟨rc, rfl⟩
        · split
          · split
            · exact ⟨_, rfl⟩
            · exact ⟨rc, rfl⟩
          · exact ⟨rc, rfl⟩
  constructor
  · unfold RedisClientState.connect
    split
    · exact ⟨rc, rfl⟩
    · split
      · exact ⟨rc, rfl⟩
      · split
        · exact ⟨_, rfl⟩
        · exact ⟨rc, rfl⟩
  constructor
  · intro hdeg
    have hguard : (!rc.isConnected || rc.client.isNone) = true := by
      rcases hdeg with h | h
      · simp [h]
      · simp [h]
    refine ⟨?_, ?_, ?_, ?_⟩
    · unfold RedisClientState.get
      simp [hguard]
    · unfold RedisClientState.set
      simp [hguard]
    · unfold RedisClientState.del
      simp [hguard]
    · unfold RedisClientState.delPattern
      simp [hguard]
  · intro b hb
    refine ⟨?_, ?_, ?_, ?_⟩
    · intro hfg
      cases hconn : rc.isConnected
      · simp [RedisClientState.get, hconn, hb]
      · simp [RedisClientState.get, hconn, hb, RedisBackend.getRaw, hfg]
    · intro hfs
      cases hconn : rc.isConnected
      · simp [RedisClientState.set, hconn, hb]
      · simp [RedisClientState.set, hconn, hb, RedisBackend.setRaw, hfs]
    · intro hfd
      cases hconn : rc.isConnected
      · simp [RedisClientState.del, hconn, hb]
      · simp [RedisClientState.del, hconn, hb, RedisBackend.delRaw, hfd]
    · rintro (hfk | hfd)
      · cases hconn : rc.isConnected
        · simp [RedisClientState.delPattern, hconn, hb]
        · simp [RedisClientState.delPattern, hconn, hb, RedisBackend.keysRaw, hfk]
      · cases hconn : rc.isConnected
        · simp [RedisClientState.delPattern, hconn, hb]
        · cases hfk : b.failKeys
          · simp [RedisClientState.delPattern, hconn, hb, RedisBackend.keysRaw, hfk,
              RedisBackend.delManyRaw, hfd]
          · simp [RedisClientState.delPattern, hconn, hb, RedisBackend.keysRaw, hfk]

/-- Claim C2: `markLessonComplete` idempotence is the stated intent (the design notes
standardise on the count-based recomputation), but the increment-based implementation
in `student.controller.ts` (`src/unnamed/part_004`), the one routed at
`PUT /api/student/enrollments/:id/lesson/complete`, adds one to `completedLessons` on
every call: two calls with identical arguments on a fresh three-lesson enrollment
leave `completedLessons = 2` where a single call leaves 1. The count-based
implementation (`src/unnamed/part_003`) recounts the unique completion records and
stays at 1 across the duplicate call. -/
theorem markLessonComplete_incr_double_counts :
    completedOf (enrollmentsAfter
        (markLessonCompleteIncr [threeLessonEnrollment] "e1" "s1" 5)) "e1" = some 1 ∧
    completedOf (enrollmentsAfter (markLessonCompleteIncr
        (enrollmentsAfter (markLessonCompleteIncr [threeLessonEnrollment] "e1" "s1" 5))
        "e1" "s1" 6)) "e1" = some 2 ∧
    completedOf (stateAfter (markLessonCompleteCount
        (stateAfter (markLessonCompleteCount ⟨[threeLessonEnrollment], []⟩ "s1" "c1" 0 0 5))
        "s1" "c1" 0 0 6)).enrollments "e1" = some 1 ∧
    (some 2 : Option Nat) ≠ some 1 := by
  refine ⟨?_, ?_, ?_, ?_⟩ <;> decide

/-- Claim C5 counterexample: on an enrollment with `totalLessons = 0`, the
increment-based `markLessonComplete` does not succeed — it fails with the 400
`'Course has no lessons'` error — and the count-based one succeeds but stores a
non-finite `progress` (the division by zero), not 0. Both refute the claim that the
call succeeds with progress pinned at 0. -/
theorem markLessonComplete_zero_lessons_cex :
    markLessonCompleteIncr [zeroLessonEnrollment] "e0" "s1" 5 =
      .error (.badRequest "Course has no lessons") ∧
    markLessonCompleteCount ⟨[zeroLessonEnrollment], []⟩ "s1" "c0" 0 0 5 =
      .ok (⟨[{ zeroLessonEnrollment with completedLessons := 1, progress := none }],
            [⟨"s1", "c0", 0, 0, 5⟩]⟩, none) ∧
    (none : Option Int) ≠ some 0 := by
  refine ⟨?_, ?_, ?_⟩ <;> decide

/-- Claim C5 (amended): for an enrollment with `totalLessons = 0`, the increment-based
`markLessonComplete` fails with the 400 `'Course has no lessons'` error (writing
nothing), while the count-based one succeeds but stores a non-finite `progress`
(`none`, the JavaScript `Infinity` from the division by zero) — not 0 — with
`isCompleted` false and `completedAt` untouched. -/
theorem markLessonComplete_zero_lessons_amended (es : List Enrollment) (s : StudentState)
    (eid sid cid : OId) (mi li : Nat) (now : Time) (e : Enrollment)
    (h0 : e.totalLessons = 0) :
    (es.find? (fun x => x.id == eid && x.student == sid) = some e →
      markLessonCompleteIncr es eid sid now =
        .error (.badRequest "Course has no lessons")) ∧
    (s.enrollments.find? (fun x => x.student == sid && x.course == cid) = some e →
      ∃ s1 n, markLessonCompleteCount s sid cid mi li now = .ok (s1, none) ∧
        s1.enrollments = replaceEnrollment s.enrollments
          { e with
            completedLessons := n,
            progress := none,
            isCompleted := false,
            completedAt := e.completedAt }) := by
  constructor
  · intro hfind
    unfold markLessonCompleteIncr
    rw [hfind]
    simp [h0]
  · intro hfind
    unfold markLessonCompleteCount
    rw [hfind]
    simp only [progressPercent, h0, if_true, reduceIte]
    exact ⟨_, _, rfl, rfl⟩

/-- Claim C5 witness: the amended theorem at the concrete zero-lesson enrollment. -/
theorem markLessonComplete_zero_lessons_witness :
    zeroLessonEnrollment.totalLessons = 0 ∧
    markLessonCompleteIncr [zeroLessonEnrollment] "e0" "s1" 5 =
      .error (.badRequest "Course has no lessons") :=
  ⟨rfl,
    (markLessonComplete_zero_lessons_amended [zeroLessonEnrollment] ⟨[], []⟩
      "e0" "s1" "c0" 0 0 5 zeroLessonEnrollment rfl).1 (by decide)⟩

/-- Claim C6 counterexample: with the count-based `markLessonComplete`, completing the
single lesson of a one-lesson course at time 10 sets `completedAt = 10`; repeating the
identical call at time 20 overwrites it to 20, because the update spreads in
`completedAt: new Date()` whenever the recomputation says the course is complete, not
only on the first transition. -/
theorem completedAt_overwritten_cex :
    markLessonCompleteCount ⟨[oneLessonEnrollment], []⟩ "s1" "c2" 0 0 10 =
      .ok (⟨[oneLessonDone10], [lessonRec10]⟩, some 100) ∧
    markLessonCompleteCount ⟨[oneLessonDone10], [lessonRec10]⟩ "s1" "c2" 0 0 20 =
      .ok (⟨[oneLessonDone20], [lessonRec10]⟩, some 100) ∧
    oneLessonDone10.completedAt = some 10 ∧
    oneLessonDone20.completedAt = some 20 ∧
    oneLessonDone20.completedAt ≠ oneLessonDone10.completedAt := by
  refine ⟨?_, ?_, rfl, rfl, ?_⟩ <;> decide

/-- Claim C6 (amended): the increment-based `markLessonComplete` sets `completedAt`
exactly once — an already-complete enrollment is returned untouched by the early
return, and an incrementing call sets `completedAt` to the current time exactly when
it crosses the completion boundary, leaving it unchanged otherwise. The count-based
implementation instead stores `completedAt := now` on every call whose recomputation
finds the enrollment complete, overwriting any previously stored value. -/
theorem completedAt_write_behavior (es : List Enrollment) (s : StudentState)
    (eid sid cid : OId) (mi li : Nat) (now : Time) (e : Enrollment) :
    (es.find? (fun x => x.id == eid && x.student == sid) = some e →
      e.totalLessons ≠ 0 → e.completedLessons ≥ e.totalLessons →
      markLessonCompleteIncr es eid sid now = .ok (es, e)) ∧
    (es.find? (fun x => x.id == eid && x.student == sid) = some e →
      e.totalLessons ≠ 0 → e.completedLessons < e.totalLessons →
      ∃ es1 e1, markLessonCompleteIncr es eid sid now = .ok (es1, e1) ∧
        e1.completedAt =
          (if e.completedLessons + 1 ≥ e.totalLessons then some now else e.completedAt) ∧
        e1.isCompleted =
          (if e.completedLessons + 1 ≥ e.totalLessons then true else e.isCompleted)) ∧
    (s.enrollments.find? (fun x => x.student == sid && x.course == cid) = some e →
      lessonRecorded s.progressRecs sid cid mi li = true →
      progressPercent (completedCount s.progressRecs sid cid) e.totalLessons = some 100 →
      ∃ s1, markLessonCompleteCount s sid cid mi li now = .ok (s1, some 100) ∧
        s1.enrollments = replaceEnrollment s.enrollments
          { e with
            completedLessons := completedCount s.progressRecs sid cid,
            progress := some 100,
            isCompleted := true,
            completedAt := some now }) := by
  refine ⟨?_, ?_, ?_⟩
  · intro hfind htl hge
    have hb0 : (e.totalLessons == 0) = false := by
      simp [htl]
    unfold markLessonCompleteIncr
    rw [hfind]
    simp [hb0, hge]
  · intro hfind htl hlt
    have hb0 : (e.totalLessons == 0) = false := by
      simp [htl]
    have hnge : ¬ e.completedLessons ≥ e.totalLessons := not_le.mpr hlt
    unfold markLessonCompleteIncr
    rw [hfind]
    simp only [hb0, Bool.false_eq_true, if_false, hnge, if_true, reduceIte]
    by_cases hcross : e.completedLessons + 1 ≥ e.totalLessons
    · refine ⟨_, _, rfl, ?_, ?_⟩ <;> simp [hcross]
    · refine ⟨_, _, rfl, ?_, ?_⟩ <;> simp [hcross]
  · intro hfind hrec hfull
    unfold markLessonCompleteCount
    rw [hfind]
    simp only [hrec, if_true, hfull, reduceIte]
    exact ⟨_, rfl, rfl⟩

/-- Claim C6 witness: the amended theorem at the concrete completed one-lesson
enrollment — the duplicate incrementing call leaves it (and its `completedAt`)
untouched. -/
theorem completedAt_write_behavior_witness :
    [oneLessonDone10].find? (fun x => x.id == "e2" && x.student == "s1") =
      some oneLessonDone10 ∧
    oneLessonDone10.totalLessons ≠ 0 ∧
    oneLessonDone10.completedLessons ≥ oneLessonDone10.totalLessons ∧
    markLessonCompleteIncr [oneLessonDone10] "e2" "s1" 99 =
      .ok ([oneLessonDone10], oneLessonDone10) :=
  ⟨by decide, by decide, by decide,
    (completedAt_write_behavior [oneLessonDone10] ⟨[], []⟩ "e2" "s1" "c2" 0 0 99
      oneLessonDone10).1 (by decide) (by decide) (by decide)⟩

/-- The indexed fold of `submitQuiz` as a sum over index positions (helper). -/
theorem enumFrom_score_eq_sum (answers : List Int) :
    ∀ (qs : List QuizQuestion) (n acc : Nat),
      ((qs.enumFrom n).foldl
        (fun acc iq =>
          acc + (if answerCorrect answers iq.1 iq.2 then questionWeight iq.2 else 0)) acc)
      = acc + ∑ i ∈ Finset.range qs.length,
          (match qs.get? i with
           | some q => if answerCorrect answers (n + i) q then questionWeight q else 0
           | none => 0) := by
  intro qs
  induction qs with
  | nil => intro n acc; simp
  | cons q rest ih =>
    intro n acc
    simp only [List.enumFrom, List.foldl, List.length_cons]
    rw [ih (n + 1)]
    rw [Finset.sum_range_succ']
    simp only [List.get?_cons_succ, List.get?_cons_zero, Nat.add_zero]
    have hS : (∑ i ∈ Finset.range rest.length,
        (match rest.get? i with
         | some q => if answerCorrect answers (n + 1 + i) q then questionWeight q else 0
         | none => 0))
      = ∑ i ∈ Finset.range rest.length,
        (match rest.get? i with
         | some q => if answerCorrect answers (n + (i + 1)) q then questionWeight q else 0
         | none => 0) := by
      apply Finset.sum_congr rfl
      intro i _
      rw [show n + 1 + i = n + (i + 1) by omega]
    rw [hS]
    omega

/-- The fold computing `totalPoints` as a mapped sum (helper). -/
theorem totalPoints_foldl (qs : List QuizQuestion) :
    ∀ acc, qs.foldl (fun acc q => acc + questionWeight q) acc =
      acc + (qs.map questionWeight).sum := by
  induction qs with
  | nil => simp
  | cons q rest ih =>
    intro acc
    simp only [List.foldl, List.map, List.sum_cons]
    rw [ih]
    omega

/-- Claim C3 counterexample: `takeQuiz` (`src/unnamed/part_003`) computes `score` as
the rounded percentage of correct answers, not as the claimed sum of point weights:
on a one-question quiz answered correctly it reports 100 where the claimed formula
yields 1. -/
theorem takeQuiz_score_not_weighted_sum :
    takeQuizScore [oneQuestion] [0] = some 100 ∧
    specScore [oneQuestion] [0] = 1 ∧
    takeQuizScore [oneQuestion] [0] ≠ some (specScore [oneQuestion] [0]) := by
  refine ⟨?_, ?_, ?_⟩ <;> decide

/-- Claim C3 (amended): the scoring of `submitQuiz` satisfies the claim — its score
is the sum over question indices of the question's effective weight (`q.points || 1`)
when the answer equals the correct-option index, `totalPoints` is the sum of all
weights, missing answers score as incorrect, entries beyond the question count are
ignored, `percentage = Math.round(score/totalPoints × 100)` whenever the quiz has any
points, and `passed` holds exactly when that percentage reaches
`quiz.passingScore || 70`. (`takeQuiz` computes a different score — see the
counterexample.) -/
theorem submitQuiz_scoring (questions : List QuizQuestion) (answers : List Int)
    (quiz : QuizDoc) :
    submitScore questions answers = specScore questions answers ∧
    totalPoints questions = (questions.map questionWeight).sum ∧
    (∀ i q, answers.length ≤ i → answerCorrect answers i q = false) ∧
    submitScore questions answers = submitScore questions (answers.take questions.length) ∧
    (totalPoints questions ≠ 0 →
      submitPercentage questions answers =
        some (jsRoundPct (submitScore questions answers) (totalPoints questions)) ∧
      (jsRoundPct (submitScore questions answers) (totalPoints questions) : ℤ) =
        jsRound ((submitScore questions answers : ℚ) / (totalPoints questions : ℚ) * 100)) ∧
    (submitPassed quiz answers = true ↔
      ∃ p, submitPercentage quiz.questions answers = some p ∧
        p ≥ effectivePassingScore quiz.passingScore) := by
  have hscore : ∀ (ans : List Int),
      submitScore questions ans = specScore questions ans := by
    intro ans
    unfold submitScore specScore
    rw [show questions.enum = questions.enumFrom 0 from rfl]
    rw [enumFrom_score_eq_sum ans questions 0 0]
    simp
  refine ⟨hscore answers, ?_, ?_, ?_, ?_, ?_⟩
  · unfold totalPoints
    rw [totalPoints_foldl questions 0]
    omega
  · intro i q h
    unfold answerCorrect
    rw [List.get?_eq_none.mpr h]
    rfl
  · rw [hscore answers, hscore (answers.take questions.length)]
    unfold specScore
    apply Finset.sum_congr rfl
    intro i hi
    have hi2 : i < questions.length := Finset.mem_range.mp hi
    cases hq : questions.get? i with
    | none => rfl
    | some q =>
      unfold answerCorrect
      rw [List.get?_take hi2]
  · intro h
    constructor
    · unfold submitPercentage
      rw [if_neg h]
    · exact jsRoundPct_eq _ _ h
  · unfold submitPassed
    cases hp : submitPercentage quiz.questions answers with
    | none =>
      simp only [Bool.false_eq_true, false_iff]
      rintro ⟨p, hp2, _⟩
      exact Option.noConfusion hp2
    | some p =>
      simp only [decide_eq_true_eq]
      constructor
      · intro hge
        exact ⟨p, rfl, hge⟩
      · rintro ⟨p2, hp2, hge⟩
        cases hp2
        exact hge

/-- Claim C3 witness: the amended theorem instantiated on a two-question single-weight
quiz with one correct and one missing answer: score 1 of 2, percentage 50, not
passed at the default 70. -/
theorem submitQuiz_scoring_witness :
    totalPoints [oneQuestion, oneQuestion] ≠ 0 ∧
    submitPercentage [oneQuestion, oneQuestion] [0] =
      some (jsRoundPct (submitScore [oneQuestion, oneQuestion] [0])
        (totalPoints [oneQuestion, oneQuestion])) ∧
    submitPercentage [oneQuestion, oneQuestion] [0] = some 50 ∧
    submitPassed ⟨"q1", some "c1", "Quiz", [oneQuestion, oneQuestion], 70⟩ [0] = false :=
  ⟨by decide,
    ((submitQuiz_scoring [oneQuestion, oneQuestion] [0]
      ⟨"q1", some "c1", "Quiz", [oneQuestion, oneQuestion], 70⟩).2.2.2.2.1
      (by decide)).1,
    by decide, by decide⟩

/-- Claim C8 counterexample: no canonical serialization happens — `getCourses` builds
its cache key with `JSON.stringify` over the filter object in insertion order, so two
filter objects that are equal as key-to-value maps but were inserted in different
orders produce different key strings, refuting the claimed order-independence. -/
theorem cacheKey_insertion_order_sensitive :
    (∀ k, lookupField filterCategoryFirst k = lookupField filterTagsFirst k) ∧
    buildCoursesCacheKey filterCategoryFirst [] 1 12 ≠
      buildCoursesCacheKey filterTagsFirst [] 1 12 := by
  constructor
  · intro k
    by_cases hc : ("category" : String) = k
    · subst hc; rfl
    · by_cases ht : ("tags" : String) = k
      · subst ht; rfl
      · have hc2 : (("category" : String) == k) = false := by
          simp [hc]
        have ht2 : (("tags" : String) == k) = false := by
          simp [ht]
        unfold lookupField filterCategoryFirst filterTagsFirst
        simp [List.find?, hc2, ht2]
  · decide

/-- Claim C8 (amended): the built keys are determined by the ordered parameter lists,
not by the key-to-value maps (the counterexample shows map-equal filters with
different insertion orders produce different keys); and the per-user assignments
listing key embeds the acting user's id right after its fixed prefix, so two distinct
equal-length user ids never collide on identical filters. -/
theorem cacheKey_user_scoping (u1 u2 : String) (course student status : Option JVal)
    (page limit : JVal) (search : Option JVal) (hlen : u1.length = u2.length) :
    buildAssignmentsAllKey u1 course student status page limit search =
      "assignments:all:" ++ u1 ++ ":" ++
        JVal.stringify (.obj (assignmentsQueryFields course student status page limit search)) ∧
    (buildAssignmentsAllKey u1 course student status page limit search =
        buildAssignmentsAllKey u2 course student status page limit search ↔ u1 = u2) := by
  refine ⟨rfl, ?_, ?_⟩
  · intro h
    unfold buildAssignmentsAllKey at h
    have hd := congrArg String.data h
    simp only [String.data_append, List.append_assoc] at hd
    have hd2 := List.append_cancel_left hd
    have hlen2 : u1.data.length = u2.data.length := hlen
    apply String.ext
    exact (List.append_inj hd2 hlen2).1
  · intro h
    rw [h]

/-- Claim C8 witness: the user-scoping theorem at two concrete distinct ids of equal
length: the keys are equal exactly when the ids are. -/
theorem cacheKey_user_scoping_witness :
    ("652a1b2c" : String).length = ("652a1b2d" : String).length ∧
    (buildAssignmentsAllKey "652a1b2c" none none none (.num 1) (.num 20) none =
        buildAssignmentsAllKey "652a1b2d" none none none (.num 1) (.num 20) none ↔
      ("652a1b2c" : String) = "652a1b2d") :=
  ⟨rfl,
    (cacheKey_user_scoping "652a1b2c" "652a1b2d" none none none
      (.num 1) (.num 20) none rfl).2⟩

/-- Claim C9: `createBatch` over a batch with two enrolled students creates zero
assignments. The code's own comment says "Get all students enrolled in this batch",
but its query `User.find({ role: 'student', batch })` selects on a `batch` path the
user schema does not declare, so no persisted user can match: the batch check against
`course.batch.name` passes, yet the fan-out enumerates the empty list, creates 0
documents, and reports 0 — not one assignment per enrolled student as claimed. -/
theorem createBatch_creates_zero :
    userBatch studentUser = none ∧
    createAssignmentBatch [batchCourse] [studentUser, studentUser2] "c1" "Batch 1"
      hwTemplate "t1" numRepr = .ok ([], 0) ∧
    (enrolledStudentsInBatch [batchCourse] [batchEnrollment1, batchEnrollment2]
      "Batch 1").length = 2 ∧
    (0 : Nat) ≠ 2 := by
  refine ⟨rfl, ?_, ?_, ?_⟩ <;> decide

/-- Claim C7 witness: the theorem applied to two concrete clients — a disconnected
one (degraded case: `get` absent) and a connected one whose every underlying call
raises (the raising case: `get` absent despite the stored value, and `set`, `del`,
and `delPattern` return the state unchanged). -/
theorem cacheStore_fail_open_witness :
    ((⟨some ⟨[("courses:X", "v")], true, true, true, true⟩, false⟩ :
        RedisClientState).isConnected = false ∨
      (⟨some ⟨[("courses:X", "v")], true, true, true, true⟩, false⟩ :
        RedisClientState).client = none) ∧
    (⟨some ⟨[("courses:X", "v")], true, true, true, true⟩, false⟩ :
        RedisClientState).get "courses:X" = .ok none ∧
    (⟨some ⟨[("courses:X", "v")], true, true, true, true⟩, true⟩ :
        RedisClientState).client = some ⟨[("courses:X", "v")], true, true, true, true⟩ ∧
    (⟨some ⟨[("courses:X", "v")], true, true, true, true⟩, true⟩ :
        RedisClientState).get "courses:X" = .ok none ∧
    (⟨some ⟨[("courses:X", "v")], true, true, true, true⟩, true⟩ :
        RedisClientState).set "courses:X" "v2" 3600 =
      .ok ⟨some ⟨[("courses:X", "v")], true, true, true, true⟩, true⟩ ∧
    (⟨some ⟨[("courses:X", "v")], true, true, true, true⟩, true⟩ :
        RedisClientState).del "courses:X" =
      .ok ⟨some ⟨[("courses:X", "v")], true, true, true, true⟩, true⟩ ∧
    (⟨some ⟨[("courses:X", "v")], true, true, true, true⟩, true⟩ :
        RedisClientState).delPattern "courses:*" =
      .ok ⟨some ⟨[("courses:X", "v")], true, true, true, true⟩, true⟩ := by
  refine ⟨Or.inl rfl, ?_, rfl, ?_, ?_, ?_, ?_⟩
  · exact ((cacheStore_fail_open
      ⟨some ⟨[("courses:X", "v")], true, true, true, true⟩, false⟩
      ⟨false, .error "unset"⟩ "courses:X" "v" "courses:*" 3600).2.2.2.2.2.1
      (Or.inl rfl)).1
  · exact ((cacheStore_fail_open
      ⟨some ⟨[("courses:X", "v")], true, true, true, true⟩, true⟩
      ⟨false, .error "unset"⟩ "courses:X" "v2" "courses:*" 3600).2.2.2.2.2.2
      ⟨[("courses:X", "v")], true, true, true, true⟩ rfl).1 rfl
  · exact ((cacheStore_fail_open
      ⟨some ⟨[("courses:X", "v")], true, true, true, true⟩, true⟩
      ⟨false, .error "unset"⟩ "courses:X" "v2" "courses:*" 3600).2.2.2.2.2.2
      ⟨[("courses:X", "v")], true, true, true, true⟩ rfl).2.1 rfl
  · exact ((cacheStore_fail_open
      ⟨some ⟨[("courses:X", "v")], true, true, true, true⟩, true⟩
      ⟨false, .error "unset"⟩ "courses:X" "v2" "courses:*" 3600).2.2.2.2.2.2
      ⟨[("courses:X", "v")], true, true, true, true⟩ rfl).2.2.1 rfl
  · exact ((cacheStore_fail_open
      ⟨some ⟨[("courses:X", "v")], true, true, true, true⟩, true⟩
      ⟨false, .error "unset"⟩ "courses:X" "v2" "courses:*" 3600).2.2.2.2.2.2
      ⟨[("courses:X", "v")], true, true, true, true⟩ rfl).2.2.2 (Or.inl rfl)

end CourseMaster
